import Mathlib

/-!
Verification of `pkg/config/config.go` of the spark-on-k8s operator.

The Go code is shallowly embedded: directory I/O results are passed in as
explicit values (`Except` for fallible reads), Go maps are association lists
with replace-on-insert semantics, nil pointers / nil maps are `Option`, and a
Go runtime panic (nil-pointer dereference, assignment to a nil map) is the
`GoResult.panic` outcome.
-/

deriving instance DecidableEq for Except

namespace SparkOp

/-- Outcome of running a piece of Go code that can hit a runtime panic
(nil-pointer dereference or assignment to a nil map). -/
inductive GoResult (α : Type) where
  | ok (val : α)
  | panic
deriving DecidableEq

/-- One entry of the listing returned by `ioutil.ReadDir`: its file name,
whether it is a subdirectory, and the result of `ioutil.ReadFile` on it
(only consulted for non-directory entries; the code skips directories before
reading). File bytes are modelled as a `String`, matching the Go code which
stores `string(bytes)`. -/
structure DirEntry where
  name : String
  isDir : Bool
  content : Except String String
deriving DecidableEq

/-- The part of `apiv1.ConfigMap` the code touches: `ObjectMeta.Name`,
`ObjectMeta.Namespace` and `Data`. The Go map `Data` is an association list
with replace-on-insert semantics (`mapInsert`). -/
structure ConfigMap where
  name : String
  ns : String
  data : List (String × String)
deriving DecidableEq

/-- Go map read `m[k]`: first binding of `k`, if any. -/
def mapGet : List (String × String) → String → Option String
  | [], _ => none
  | (k, v) :: rest, key => if k = key then some v else mapGet rest key

/-- Go map write `m[k] = v`: replace the binding of `k` in place, or append a
fresh binding at the end. -/
def mapInsert : List (String × String) → String → String → List (String × String)
  | [], key, val => [(key, val)]
  | (k, v) :: rest, key, val =>
    if k = key then (key, val) :: rest else (k, v) :: mapInsert rest key val

/-- Modelled from the spec: `util.NewHash32` (package `pkg/util`, not part of
the given sources) is the running 32-bit hash accumulator of the bundle
builder. We model it as the 32-bit FNV-1 accumulator (`hash/fnv`): prime
multiplier of each step. -/
def fnvPrime : Nat := 16777619

/-- Modelled from the spec: the 32-bit accumulator's initial state
(FNV-1 offset basis). -/
def fnvOffsetBasis : Nat := 2166136261

/-- Modelled from the spec: one byte fed into the 32-bit accumulator
(multiply by the prime modulo 2^32, then xor the byte in). -/
def hashStep (h b : Nat) : Nat := (h * fnvPrime % 2 ^ 32) ^^^ b

/-- Modelled from the spec: `hasher.Write(bs)` — feed a byte sequence into the
accumulator, one byte at a time. -/
def hashBytes (h : Nat) (bs : List Nat) : Nat := bs.foldl hashStep h

/-- Modelled from the spec: the byte sequence of a string (`[]byte(s)`),
modelled as the sequence of character codes. -/
def strBytes (s : String) : List Nat := s.toList.map Char.toNat

-- Naming constants of the source (`const` blocks of `config.go`).

def DefaultSparkConfDir : String := "/etc/spark/conf"
def SparkConfigMapNamePfx : String := "spark-config-map"
def SparkConfigMapVolumeName : String := "spark-config-map-volume"
def DefaultHadoopConfDir : String := "/etc/hadoop/conf"
def HadoopConfigMapNamePfx : String := "hadoop-config-map"
def HadoopConfigMapVolumeName : String := "hadoop-config-map-volume"
def LabelAnnotationPfx : String := "apache-spark-on-k8s/"
def SparkConfigMapAnnotationName : String := LabelAnnotationPfx ++ "spark-config-map"
def HadoopConfigMapAnnotationName : String := LabelAnnotationPfx ++ "hadoop-config-map"
def SparkDriverAnnotationsKey : String := "spark.kubernetes.driver.annotations"
def SparkExecutorAnnotationsKey : String := "spark.kubernetes.executor.annotations"
def SparkConfDirEnvVar : String := "SPARK_CONF_DIR"
def HadoopConfDirEnvVar : String := "HADOOP_CONF_DIR"

/-- The part of `v1alpha1.SparkApplicationSpec` the code touches. `SparkConf`
is a Go map that may be nil (`none`); `SparkConfigMap`/`HadoopConfigMap` are
`*string` fields, nil (`none`) until assigned. -/
structure SparkApplicationSpec where
  sparkConf : Option (List (String × String))
  sparkConfigMap : Option String
  hadoopConfigMap : Option String
deriving DecidableEq

/-- The part of `v1alpha1.SparkApplication` the code touches. -/
structure SparkApplication where
  uid : String
  spec : SparkApplicationSpec
deriving DecidableEq

/-- `AddConfigMapAnnotation` of `config.go` (suffix `Entry` added to the Lean
name for lexical reasons). Reading a nil Go map yields `ok = false`; the
subsequent assignment `app.Spec.SparkConf[annotationConfKey] = ...` into a nil
map panics, hence `GoResult.panic` when `sparkConf` is `none`. -/
def AddConfigMapAnnotationEntry (app : SparkApplication)
    (annotationConfKey key value : String) : GoResult SparkApplication :=
  match app.spec.sparkConf with
  | none => GoResult.panic
  | some conf =>
    match mapGet conf annotationConfKey with
    | some annots =>
      GoResult.ok { app with spec := { app.spec with
        sparkConf := some (mapInsert conf annotationConfKey
          (annots ++ "," ++ key ++ "=" ++ value)) } }
    | none =>
      GoResult.ok { app with spec := { app.spec with
        sparkConf := some (mapInsert conf annotationConfKey (key ++ "=" ++ value)) } }

/-- The loop body of `buildConfigMapFromConfigDir`: walk the listing in order,
skip directories, read each file (propagating a read error), feed the bytes to
the accumulator and record `filename → content` in the Go map `data`. -/
def processFiles : List DirEntry → Nat → List (String × String) →
    Except String (Nat × List (String × String))
  | [], hasher, data => Except.ok (hasher, data)
  | file :: files, hasher, data =>
    if file.isDir then processFiles files hasher data
    else
      match file.content with
      | Except.error e => Except.error e
      | Except.ok bytes =>
        processFiles files (hashBytes hasher (strBytes bytes))
          (mapInsert data file.name bytes)

/-- `buildConfigMapFromConfigDir(dir, namePrefix, namespace, appUID)`.
`readDir` is the result of `ioutil.ReadDir(dir)`. Returns the Go pair
`(*apiv1.ConfigMap, error)`: a nil pointer (`none`) together with the error on
any failure, otherwise the built ConfigMap and a nil error. -/
def buildConfigMapFromConfigDir (readDir : Except String (List DirEntry))
    (dir pfx ns appUID : String) : Option ConfigMap × Option String :=
  match readDir with
  | Except.error e => (none, some e)
  | Except.ok files =>
    match processFiles files fnvOffsetBasis [] with
    | Except.error e => (none, some e)
    | Except.ok (hasher, data) =>
      let h1 := hashBytes hasher (strBytes dir)
      let h2 := hashBytes h1 (strBytes ns)
      let h3 := hashBytes h2 (strBytes appUID)
      (some { name := pfx ++ "-" ++ toString h3, ns := ns, data := data }, none)

/-- Go field selection `configMap.Name` on a possibly-nil pointer: a nil
pointer dereference is a runtime panic. -/
def derefConfigMapName : Option ConfigMap → GoResult String
  | none => GoResult.panic
  | some cm => GoResult.ok cm.name

/-- `createConfigMap(dir, namespace, namePrefix, app, kubeClient)`. `create`
is the behaviour of `kubeClient.CoreV1().ConfigMaps(namespace).Create`,
returning the Go pair `(*apiv1.ConfigMap, error)`. Each `return
configMap.Name, ...` dereferences the current pointer, hence `GoResult`. -/
def createConfigMap (readDir : Except String (List DirEntry))
    (create : ConfigMap → Option ConfigMap × Option String)
    (dir ns pfx appUID : String) : GoResult (String × Option String) :=
  match buildConfigMapFromConfigDir readDir dir pfx ns appUID with
  | (cmOpt, some e) =>
    match derefConfigMapName cmOpt with
    | GoResult.panic => GoResult.panic
    | GoResult.ok n => GoResult.ok (n, some e)
  | (cmOpt, none) =>
    match cmOpt with
    | none => GoResult.panic
    | some cm =>
      match create cm with
      | (cmOpt2, e2) =>
        match derefConfigMapName cmOpt2 with
        | GoResult.panic => GoResult.panic
        | GoResult.ok n => GoResult.ok (n, e2)

/-- `CreateSparkConfigMap(sparkConfDir, namespace, app, kubeClient)`:
provision the bundle, register its name under the driver and executor
annotation keys, then set `app.Spec.SparkConfigMap`. Mutation of `app` is
modelled by returning the updated application together with the Go error. -/
def CreateSparkConfigMap (readDir : Except String (List DirEntry))
    (create : ConfigMap → Option ConfigMap × Option String)
    (sparkConfDir ns : String) (app : SparkApplication) :
    GoResult (SparkApplication × Option String) :=
  match createConfigMap readDir create sparkConfDir ns SparkConfigMapNamePfx app.uid with
  | GoResult.panic => GoResult.panic
  | GoResult.ok (_, some e) => GoResult.ok (app, some e)
  | GoResult.ok (name, none) =>
    match AddConfigMapAnnotationEntry app SparkDriverAnnotationsKey
        SparkConfigMapAnnotationName name with
    | GoResult.panic => GoResult.panic
    | GoResult.ok app1 =>
      match AddConfigMapAnnotationEntry app1 SparkExecutorAnnotationsKey
          SparkConfigMapAnnotationName name with
      | GoResult.panic => GoResult.panic
      | GoResult.ok app2 =>
        GoResult.ok ({ app2 with spec := { app2.spec with
          sparkConfigMap := some name } }, none)

/-- `CreateHadoopConfigMap(hadoopConfDir, namespace, app, kubeClient)`:
symmetric to `CreateSparkConfigMap` with the Hadoop prefix, subkey and
`HadoopConfigMap` field. -/
def CreateHadoopConfigMap (readDir : Except String (List DirEntry))
    (create : ConfigMap → Option ConfigMap × Option String)
    (hadoopConfDir ns : String) (app : SparkApplication) :
    GoResult (SparkApplication × Option String) :=
  match createConfigMap readDir create hadoopConfDir ns HadoopConfigMapNamePfx app.uid with
  | GoResult.panic => GoResult.panic
  | GoResult.ok (_, some e) => GoResult.ok (app, some e)
  | GoResult.ok (name, none) =>
    match AddConfigMapAnnotationEntry app SparkDriverAnnotationsKey
        HadoopConfigMapAnnotationName name with
    | GoResult.panic => GoResult.panic
    | GoResult.ok app1 =>
      match AddConfigMapAnnotationEntry app1 SparkExecutorAnnotationsKey
          HadoopConfigMapAnnotationName name with
      | GoResult.panic => GoResult.panic
      | GoResult.ok app2 =>
        GoResult.ok ({ app2 with spec := { app2.spec with
          hadoopConfigMap := some name } }, none)

/-- `apiv1.ConfigMapVolumeSource` as used: only
`LocalObjectReference.Name`. -/
structure ConfigMapVolumeSource where
  name : String
deriving DecidableEq

/-- `apiv1.Volume` as used: a name and an optional ConfigMap source. A volume
backed by a ConfigMap is object-backed and read-only by Kubernetes semantics;
the `apiv1.Volume` type carries no separate read-only flag. -/
structure Volume where
  name : String
  configMap : Option ConfigMapVolumeSource
deriving DecidableEq

/-- `apiv1.VolumeMount` as used. -/
structure VolumeMount where
  name : String
  readOnly : Bool
  mountPath : String
deriving DecidableEq

/-- `apiv1.EnvVar` as used. -/
structure EnvVar where
  name : String
  value : String
deriving DecidableEq

/-- `apiv1.Container` as used: its volume mounts and environment. -/
structure Container where
  volumeMounts : List VolumeMount
  env : List EnvVar
deriving DecidableEq

/-- `apiv1.PodSpec` as used: its volume list. -/
structure PodSpec where
  volumes : List Volume
deriving DecidableEq

/-- `apiv1.Pod` as used. -/
structure Pod where
  spec : PodSpec
deriving DecidableEq

/-- `addConfigMapVolumeToPod(configMapName, configMapVolumeName, pod)`:
appends one ConfigMap-backed volume and returns the volume name. Mutation of
`pod` is modelled by returning the updated pod alongside. -/
def addConfigMapVolumeToPod (configMapName configMapVolumeName : String)
    (pod : Pod) : Pod × String :=
  let volume : Volume :=
    { name := configMapVolumeName, configMap := some { name := configMapName } }
  ({ pod with spec := { pod.spec with volumes := pod.spec.volumes ++ [volume] } },
    volume.name)

/-- `AddSparkConfigMapVolumeToPod`. -/
def AddSparkConfigMapVolumeToPod (configMapName : String) (pod : Pod) : Pod × String :=
  addConfigMapVolumeToPod configMapName SparkConfigMapVolumeName pod

/-- `AddHadoopConfigMapVolumeToPod`. -/
def AddHadoopConfigMapVolumeToPod (configMapName : String) (pod : Pod) : Pod × String :=
  addConfigMapVolumeToPod configMapName HadoopConfigMapVolumeName pod

/-- `mountConfigMapToContainer(volumeName, mountPath, env, container)`:
appends one read-only volume mount and one environment variable whose value is
the mount path. -/
def mountConfigMapToContainer (volumeName mountPath env : String)
    (container : Container) : Container :=
  let volumeMount : VolumeMount :=
    { name := volumeName, readOnly := true, mountPath := mountPath }
  let c1 : Container :=
    { container with volumeMounts := container.volumeMounts ++ [volumeMount] }
  let appCredentialEnvVar : EnvVar := { name := env, value := mountPath }
  { c1 with env := c1.env ++ [appCredentialEnvVar] }

/-- `MountSparkConfigMapToContainer`. -/
def MountSparkConfigMapToContainer (volumeName mountPath : String)
    (container : Container) : Container :=
  mountConfigMapToContainer volumeName mountPath SparkConfDirEnvVar container

/-- `MountHadoopConfigMapToContainer`. -/
def MountHadoopConfigMapToContainer (volumeName mountPath : String)
    (container : Container) : Container :=
  mountConfigMapToContainer volumeName mountPath HadoopConfDirEnvVar container

/-- The successfully-read contents of the non-directory entries of a listing,
in listing order (used to state what the hash accumulator is fed). -/
def fileContents (files : List DirEntry) : List String :=
  files.filterMap fun f => if f.isDir then none else f.content.toOption

/-- The `filename → content` pairs of the non-directory entries of a listing
whose read succeeded, in listing order. -/
def extractData (files : List DirEntry) : List (String × String) :=
  files.filterMap fun f =>
    if f.isDir then none else (f.content.toOption).map fun c => (f.name, c)

/-- One `subkey=value` annotation entry rendered as a string. -/
def entryStr (kv : String × String) : String := kv.1 ++ "=" ++ kv.2

/-- The comma-joined rendering of a list of `subkey=value` entries, in
order. -/
def joinEntries : List (String × String) → String
  | [] => ""
  | kv :: rest =>
    match rest with
    | [] => entryStr kv
    | _ :: _ => entryStr kv ++ "," ++ joinEntries rest

/-- The new string value that one `AddConfigMapAnnotation` call stores for
its key, as a function of the previous value (if any). -/
def appendEntryVal : Option String → String → String → String
  | some annots, k, v => annots ++ "," ++ k ++ "=" ++ v
  | none, k, v => k ++ "=" ++ v

/-- Iterate `AddConfigMapAnnotation` over a list of `(subkey, value)` calls on
a fixed annotation key. -/
def iterAddEntry (key : String) : List (String × String) → SparkApplication →
    GoResult SparkApplication
  | [], app => GoResult.ok app
  | (k, v) :: rest, app =>
    match AddConfigMapAnnotationEntry app key k v with
    | GoResult.panic => GoResult.panic
    | GoResult.ok app1 => iterAddEntry key rest app1

/-- Project the built ConfigMap out of a build result (with a default for the
failure case); used to name concrete built ConfigMaps in closed statements. -/
def builtOrDefault (r : Option ConfigMap × Option String) : ConfigMap :=
  match r.1 with
  | some cm => cm
  | none => { name := "", ns := "", data := [] }

/-- Project the returned name out of a `createConfigMap` result (with a
default for the panic case); used to name concrete results in closed
statements. -/
def createOkName : GoResult (String × Option String) → String
  | GoResult.ok (n, _) => n
  | GoResult.panic => ""

/-- An object store that accepts every create request and echoes the object
back, as the real clientset does on success. -/
def acceptingCreate : ConfigMap → Option ConfigMap × Option String :=
  fun cm => (some cm, none)

/-- A concrete application with an initialized (non-nil) `SparkConf` map. -/
def appW : SparkApplication :=
  { uid := "uid-123",
    spec := { sparkConf := some [], sparkConfigMap := none, hadoopConfigMap := none } }

/-- A concrete application whose `SparkConf` map is nil. -/
def appNilConf : SparkApplication :=
  { uid := "uid-123",
    spec := { sparkConf := none, sparkConfigMap := none, hadoopConfigMap := none } }

/-- A concrete one-file directory listing. -/
def wListing : List DirEntry := [{ name := "f", isDir := false, content := Except.ok "a" }]

/-- A concrete listing with one file and one subdirectory. -/
def wListingC3 : List DirEntry :=
  [{ name := "f", isDir := false, content := Except.ok "x" },
   { name := "sub", isDir := true, content := Except.ok "" }]

/-- The ConfigMap built from `wListing`. -/
def cmC1 : ConfigMap :=
  builtOrDefault (buildConfigMapFromConfigDir (Except.ok wListing) "d" "p" "n" "u")

/-- The ConfigMap built from `wListingC3`. -/
def cmC3 : ConfigMap :=
  builtOrDefault (buildConfigMapFromConfigDir (Except.ok wListingC3) "d" "p" "n" "u")

/-- The name returned by a successful `createConfigMap` on an empty listing
with the Spark prefix. -/
def nameSW : String :=
  createOkName (createConfigMap (Except.ok []) acceptingCreate "d" "n"
    SparkConfigMapNamePfx "uid-123")

/-- The name returned by a successful `createConfigMap` on an empty listing
with the Hadoop prefix. -/
def nameHW : String :=
  createOkName (createConfigMap (Except.ok []) acceptingCreate "d" "n"
    HadoopConfigMapNamePfx "uid-123")

/-! Helper lemmas about the Go-map model. -/

theorem mapGet_mapInsert_self (m : List (String × String)) (k v : String) :
    mapGet (mapInsert m k v) k = some v := by
  induction m with
  | nil => simp [mapInsert, mapGet]
  | cons kv rest ih =>
    obtain ⟨a, b⟩ := kv
    by_cases h : a = k
    · simp [mapInsert, h, mapGet]
    · simp [mapInsert, h, mapGet, ih]

theorem mapGet_mapInsert_ne (m : List (String × String)) (k v k' : String)
    (h : k' ≠ k) : mapGet (mapInsert m k v) k' = mapGet m k' := by
  induction m with
  | nil => simp [mapInsert, mapGet, Ne.symm h]
  | cons kv rest ih =>
    obtain ⟨a, b⟩ := kv
    by_cases hak : a = k
    · subst hak
      simp [mapInsert, mapGet, Ne.symm h]
    · simp [mapInsert, hak, mapGet, ih]

theorem mapInsert_mapInsert_self (m : List (String × String)) (k v v' : String) :
    mapInsert (mapInsert m k v) k v' = mapInsert m k v' := by
  induction m with
  | nil => simp [mapInsert]
  | cons kv rest ih =>
    obtain ⟨a, b⟩ := kv
    by_cases hak : a = k
    · simp [mapInsert, hak]
    · simp [mapInsert, hak, ih]

theorem mapInsert_fresh (m : List (String × String)) (k v : String)
    (h : mapGet m k = none) : mapInsert m k v = m ++ [(k, v)] := by
  induction m with
  | nil => simp [mapInsert]
  | cons kv rest ih =>
    obtain ⟨a, b⟩ := kv
    by_cases hak : a = k
    · simp [mapGet, hak] at h
    · simp [mapGet, hak] at h
      simp [mapInsert, hak, ih h]

theorem mapGet_append_left (m1 m2 : List (String × String)) (k v : String)
    (h : mapGet m1 k = some v) : mapGet (m1 ++ m2) k = some v := by
  induction m1 with
  | nil => simp [mapGet] at h
  | cons kv rest ih =>
    obtain ⟨a, b⟩ := kv
    by_cases hak : a = k
    · simp [mapGet, hak] at h ⊢; exact h
    · simp [mapGet, hak] at h ⊢; exact ih h

theorem mapGet_append_right (m1 m2 : List (String × String)) (k : String)
    (h : mapGet m1 k = none) : mapGet (m1 ++ m2) k = mapGet m2 k := by
  induction m1 with
  | nil => simp
  | cons kv rest ih =>
    obtain ⟨a, b⟩ := kv
    by_cases hak : a = k
    · simp [mapGet, hak] at h
    · simp [mapGet, hak] at h ⊢; exact ih h

/-! Helper lemmas about the hash accumulator and the build loop. -/

theorem hashBytes_append (h : Nat) (a b : List Nat) :
    hashBytes h (a ++ b) = hashBytes (hashBytes h a) b := by
  simp [hashBytes, List.foldl_append]

theorem processFiles_hash (files : List DirEntry) :
    ∀ (h0 : Nat) (d : List (String × String)) (h1 : Nat)
      (data : List (String × String)),
      processFiles files h0 d = Except.ok (h1, data) →
      h1 = hashBytes h0 ((fileContents files).map strBytes).flatten := by
  induction files with
  | nil =>
    intro h0 d h1 data hp
    simp [processFiles] at hp
    simp [fileContents, hashBytes, hp.1]
  | cons f rest ih =>
    intro h0 d h1 data hp
    by_cases hd : f.isDir
    · simp [processFiles, hd] at hp
      simpa [fileContents, hd] using ih h0 d h1 data hp
    · cases hc : f.content with
      | error e => simp [processFiles, hd, hc] at hp
      | ok c =>
        simp [processFiles, hd, hc] at hp
        have := ih (hashBytes h0 (strBytes c)) (mapInsert d f.name c) h1 data hp
        simp [fileContents, hd, hc, Except.toOption, this, hashBytes_append]

theorem processFiles_filter (files : List DirEntry) :
    ∀ (h0 : Nat) (d : List (String × String)),
      processFiles (files.filter fun f => !f.isDir) h0 d = processFiles files h0 d := by
  induction files with
  | nil => intro h0 d; rfl
  | cons f rest ih =>
    intro h0 d
    by_cases hd : f.isDir
    · simp [List.filter, hd, processFiles, ih]
    · cases hc : f.content with
      | error e => simp [List.filter, hd, processFiles, hc]
      | ok c => simp [List.filter, hd, processFiles, hc, ih]

theorem processFiles_data (files : List DirEntry) :
    ∀ (h0 : Nat) (d : List (String × String)) (h1 : Nat)
      (data : List (String × String)),
      (∀ f ∈ files, f.isDir = false → mapGet d f.name = none) →
      (files.map DirEntry.name).Nodup →
      processFiles files h0 d = Except.ok (h1, data) →
      data = d ++ extractData files := by
  induction files with
  | nil =>
    intro h0 d h1 data _ _ hp
    simp [processFiles] at hp
    simp [extractData, hp.2]
  | cons f rest ih =>
    intro h0 d h1 data hfresh hnodup hp
    simp only [List.map_cons, List.nodup_cons] at hnodup
    obtain ⟨hfn, hnodup'⟩ := hnodup
    by_cases hd : f.isDir
    · simp [processFiles, hd] at hp
      have := ih h0 d h1 data (fun g hg hgd => hfresh g (List.mem_cons_of_mem f hg) hgd)
        hnodup' hp
      simpa [extractData, hd] using this
    · cases hc : f.content with
      | error e => simp [processFiles, hd, hc] at hp
      | ok c =>
        simp [processFiles, hd, hc] at hp
        have hdf : mapGet d f.name = none :=
          hfresh f (List.mem_cons_self f rest) (by simpa using hd)
        have hins : mapInsert d f.name c = d ++ [(f.name, c)] :=
          mapInsert_fresh d f.name c hdf
        have hfresh' : ∀ g ∈ rest, g.isDir = false →
            mapGet (mapInsert d f.name c) g.name = none := by
          intro g hg hgd
          have hgn : g.name ≠ f.name := by
            intro hEq
            exact hfn (hEq ▸ List.mem_map_of_mem DirEntry.name hg)
          rw [hins]
          rw [mapGet_append_right d [(f.name, c)] g.name
            (hfresh g (List.mem_cons_of_mem f hg) hgd)]
          simp [mapGet, Ne.symm hgn]
        have := ih (hashBytes h0 (strBytes c)) (mapInsert d f.name c) h1 data
          hfresh' hnodup' hp
        rw [this, hins]
        simp [extractData, hd, hc, Except.toOption]

theorem mapGet_extractData (files : List DirEntry) :
    (files.map DirEntry.name).Nodup →
    ∀ (k v : String),
      mapGet (extractData files) k = some v ↔
        ∃ f ∈ files, f.isDir = false ∧ f.name = k ∧ f.content = Except.ok v := by
  induction files with
  | nil => intro _ k v; simp [extractData, mapGet]
  | cons f rest ih =>
    intro hnodup k v
    simp only [List.map_cons, List.nodup_cons] at hnodup
    obtain ⟨hfn, hnodup'⟩ := hnodup
    by_cases hd : f.isDir
    · rw [show extractData (f :: rest) = extractData rest by simp [extractData, hd]]
      rw [ih hnodup' k v]
      constructor
      · rintro ⟨g, hg, hprops⟩
        exact ⟨g, List.mem_cons_of_mem f hg, hprops⟩
      · rintro ⟨g, hg, hgd, hrest⟩
        rcases List.mem_cons.mp hg with rfl | hg'
        · rw [hd] at hgd; cases hgd
        · exact ⟨g, hg', hgd, hrest⟩
    · cases hc : f.content with
      | error e =>
        rw [show extractData (f :: rest) = extractData rest by
          simp [extractData, hd, hc, Except.toOption]]
        rw [ih hnodup' k v]
        constructor
        · rintro ⟨g, hg, hprops⟩
          exact ⟨g, List.mem_cons_of_mem f hg, hprops⟩
        · rintro ⟨g, hg, hgd, hgn, hgc⟩
          rcases List.mem_cons.mp hg with rfl | hg'
          · rw [hc] at hgc; cases hgc
          · exact ⟨g, hg', hgd, hgn, hgc⟩
      | ok c =>
        rw [show extractData (f :: rest) = (f.name, c) :: extractData rest by
          simp [extractData, hd, hc, Except.toOption]]
        by_cases hk : f.name = k
        · subst hk
          rw [show mapGet ((f.name, c) :: extractData rest) f.name = some c by
            simp [mapGet]]
          constructor
          · rintro hcv
            exact ⟨f, List.mem_cons_self f rest, by simpa using hd, rfl,
              by rw [hc, Option.some.inj hcv]⟩
          · rintro ⟨g, hg, hgd, hgn, hgc⟩
            rcases List.mem_cons.mp hg with rfl | hg'
            · rw [hc] at hgc
              cases hgc
              rfl
            · exact absurd (hgn ▸ List.mem_map_of_mem DirEntry.name hg') hfn
        · rw [show mapGet ((f.name, c) :: extractData rest) k = mapGet (extractData rest) k by
            simp [mapGet, hk]]
          rw [ih hnodup' k v]
          constructor
          · rintro ⟨g, hg, hprops⟩
            exact ⟨g, List.mem_cons_of_mem f hg, hprops⟩
          · rintro ⟨g, hg, hgd, hgn, hgc⟩
            rcases List.mem_cons.mp hg with rfl | hg'
            · exact absurd hgn hk
            · exact ⟨g, hg', hgd, hgn, hgc⟩

/-! Helper lemmas about the bundle builder's result shapes. -/

theorem buildConfigMap_error_shape (readDir : Except String (List DirEntry))
    (dir pfx ns uid e : String)
    (h : (buildConfigMapFromConfigDir readDir dir pfx ns uid).2 = some e) :
    buildConfigMapFromConfigDir readDir dir pfx ns uid = (none, some e) := by
  cases readDir with
  | error e' =>
    simp [buildConfigMapFromConfigDir] at h ⊢
    exact h
  | ok files =>
    cases hp : processFiles files fnvOffsetBasis [] with
    | error e' =>
      simp [buildConfigMapFromConfigDir, hp] at h ⊢
      exact h
    | ok pr =>
      obtain ⟨h1, data⟩ := pr
      simp [buildConfigMapFromConfigDir, hp] at h

theorem buildConfigMap_ok_elim (files : List DirEntry) (dir pfx ns uid : String)
    (cm : ConfigMap)
    (hb : buildConfigMapFromConfigDir (Except.ok files) dir pfx ns uid = (some cm, none)) :
    ∃ h1 : Nat,
      processFiles files fnvOffsetBasis [] = Except.ok (h1, cm.data) ∧
      cm.name = pfx ++ "-" ++ toString (hashBytes (hashBytes (hashBytes h1
        (strBytes dir)) (strBytes ns)) (strBytes uid)) ∧
      cm.ns = ns := by
  cases hp : processFiles files fnvOffsetBasis [] with
  | error e => simp [buildConfigMapFromConfigDir, hp] at hb
  | ok pr =>
    obtain ⟨h1, data⟩ := pr
    rw [buildConfigMapFromConfigDir, hp] at hb
    simp only [Prod.mk.injEq, Option.some.injEq] at hb
    obtain ⟨hcm, -⟩ := hb
    exact ⟨h1, by rw [← hcm], by rw [← hcm], by rw [← hcm]⟩

theorem buildConfigMap_filter (files : List DirEntry) (dir pfx ns uid : String) :
    buildConfigMapFromConfigDir (Except.ok (files.filter fun f => !f.isDir))
        dir pfx ns uid =
      buildConfigMapFromConfigDir (Except.ok files) dir pfx ns uid := by
  simp [buildConfigMapFromConfigDir, processFiles_filter]

/-! Helper lemmas about the annotation-registration step. -/

theorem addEntry_some (app : SparkApplication) (conf : List (String × String))
    (ack k v : String) (h : app.spec.sparkConf = some conf) :
    AddConfigMapAnnotationEntry app ack k v =
      GoResult.ok { app with spec := { app.spec with
        sparkConf := some (mapInsert conf ack (appendEntryVal (mapGet conf ack) k v)) } } := by
  cases hg : mapGet conf ack with
  | none => simp [AddConfigMapAnnotationEntry, h, hg, appendEntryVal]
  | some s => simp [AddConfigMapAnnotationEntry, h, hg, appendEntryVal]

theorem joinEntries_cons (kv : String × String) (rest : List (String × String))
    (h : rest ≠ []) :
    joinEntries (kv :: rest) = entryStr kv ++ "," ++ joinEntries rest := by
  cases rest with
  | nil => cases h rfl
  | cons kv' rest' => rfl

theorem iterAddEntry_present (key : String) (entries : List (String × String)) :
    ∀ (app : SparkApplication) (conf : List (String × String)) (s : String),
      app.spec.sparkConf = some conf → mapGet conf key = some s → entries ≠ [] →
      iterAddEntry key entries app =
        GoResult.ok { app with spec := { app.spec with
          sparkConf := some (mapInsert conf key (s ++ "," ++ joinEntries entries)) } } := by
  induction entries with
  | nil => intro app conf s _ _ hne; cases hne rfl
  | cons kv rest ih =>
    intro app conf s hconf hget _
    obtain ⟨k, v⟩ := kv
    rw [iterAddEntry, addEntry_some app conf key k v hconf]
    rw [hget]
    cases hrest : rest with
    | nil =>
      simp [iterAddEntry, joinEntries, entryStr, appendEntryVal, String.append_assoc]
    | cons kv' rest' =>
      rw [← hrest]
      have hne' : rest ≠ [] := by rw [hrest]; simp
      have hconf1 : ({ app with spec := { app.spec with
          sparkConf := some (mapInsert conf key (appendEntryVal (some s) k v)) } }
            : SparkApplication).spec.sparkConf =
          some (mapInsert conf key (appendEntryVal (some s) k v)) := rfl
      dsimp only
      rw [ih _ _ (appendEntryVal (some s) k v) hconf1
        (mapGet_mapInsert_self conf key (appendEntryVal (some s) k v)) hne']
      rw [mapInsert_mapInsert_self]
      rw [joinEntries_cons (k, v) rest hne']
      simp [appendEntryVal, entryStr, String.append_assoc]

/-! The claims. -/

/-- C1: Building a bundle is deterministic: for every directory listing with
fixed file names and byte contents, and fixed `(prefix, namespace, owner UID)`,
two calls of `buildConfigMapFromConfigDir` return ConfigMaps with the
identical name and identical data map. -/
theorem claim_C1 (listing : Except String (List DirEntry)) (dir pfx ns uid : String)
    (cm1 cm2 : ConfigMap)
    (h1 : buildConfigMapFromConfigDir listing dir pfx ns uid = (some cm1, none))
    (h2 : buildConfigMapFromConfigDir listing dir pfx ns uid = (some cm2, none)) :
    cm1.name = cm2.name ∧ cm1.data = cm2.data := by
  rw [h1] at h2
  simp only [Prod.mk.injEq, Option.some.injEq] at h2
  rw [h2.1]
  exact ⟨rfl, rfl⟩

/-- Witness for C1: both hypotheses hold at a concrete one-file listing. -/
theorem claim_C1_witness :
    buildConfigMapFromConfigDir (Except.ok wListing) "d" "p" "n" "u" =
      (some cmC1, none) ∧
    (cmC1.name = cmC1.name ∧ cmC1.data = cmC1.data) :=
  ⟨rfl, claim_C1 (Except.ok wListing) "d" "p" "n" "u" cmC1 cmC1 rfl rfl⟩

/-- C2 (claim refuted by the code — bug exhibit): on an I/O failure reading
the source directory, `CreateSparkConfigMap`/`CreateHadoopConfigMap` do not
return the error to the caller: `createConfigMap` receives the nil ConfigMap
pointer alongside the error and evaluates `configMap.Name` on it, so the call
panics instead of returning. -/
theorem claim_C2 :
    buildConfigMapFromConfigDir (Except.error "io error") DefaultSparkConfDir
        SparkConfigMapNamePfx "default" "uid-123" = (none, some "io error") ∧
    CreateSparkConfigMap (Except.error "io error") acceptingCreate
        DefaultSparkConfDir "default" appW = GoResult.panic ∧
    CreateHadoopConfigMap (Except.error "io error") acceptingCreate
        DefaultHadoopConfDir "default" appW = GoResult.panic :=
  ⟨rfl, rfl, rfl⟩

/-- C7: one `addConfigMapVolumeToPod` call plus one
`mountConfigMapToContainer` call increases the pod's volume count by exactly
1, the container's mount count by exactly 1 (the mount being read-only at
`mountPath` and bound to `volumeName`), and the container's environment
variable count by exactly 1, the added variable's value being `mountPath`. -/
theorem claim_C7 (pod : Pod) (container : Container)
    (cmName vName mountPath envName : String) :
    (addConfigMapVolumeToPod cmName vName pod).1.spec.volumes.length =
        pod.spec.volumes.length + 1 ∧
    (mountConfigMapToContainer vName mountPath envName container).volumeMounts =
        container.volumeMounts ++
          [{ name := vName, readOnly := true, mountPath := mountPath }] ∧
    (mountConfigMapToContainer vName mountPath envName container).volumeMounts.length =
        container.volumeMounts.length + 1 ∧
    (mountConfigMapToContainer vName mountPath envName container).env =
        container.env ++ [{ name := envName, value := mountPath }] ∧
    (mountConfigMapToContainer vName mountPath envName container).env.length =
        container.env.length + 1 := by
  simp [addConfigMapVolumeToPod, mountConfigMapToContainer]

/-- C8: `addConfigMapVolumeToPod` appends exactly one volume entry to the pod,
which references the bundle (ConfigMap) name under the given volume name and
is ConfigMap-backed — the object-backed, read-only kind of volume (the
`apiv1.Volume` type has no separate read-only flag; being backed by a
ConfigMap is what makes it read-only) — and returns the volume name. -/
theorem claim_C8 (pod : Pod) (cmName vName : String) :
    (addConfigMapVolumeToPod cmName vName pod).1.spec.volumes =
      pod.spec.volumes ++
        [{ name := vName, configMap := some { name := cmName } }] ∧
    (addConfigMapVolumeToPod cmName vName pod).2 = vName ∧
    (({ name := vName, configMap := some { name := cmName } } : Volume)).configMap.isSome
      = true := by
  simp [addConfigMapVolumeToPod]

/-- C9: whenever `buildConfigMapFromConfigDir` returns a non-nil error it
returns a nil ConfigMap pointer, and `createConfigMap` then evaluates
`configMap.Name` on that nil pointer in its error branch, so the error branch
is a nil-pointer dereference (panic) rather than a clean error return. -/
theorem claim_C9 (readDir : Except String (List DirEntry))
    (create : ConfigMap → Option ConfigMap × Option String)
    (dir ns pfx uid e : String)
    (h : (buildConfigMapFromConfigDir readDir dir pfx ns uid).2 = some e) :
    (buildConfigMapFromConfigDir readDir dir pfx ns uid).1 = none ∧
    createConfigMap readDir create dir ns pfx uid = GoResult.panic := by
  have hb := buildConfigMap_error_shape readDir dir pfx ns uid e h
  constructor
  · rw [hb]
  · simp [createConfigMap, hb, derefConfigMapName]

/-- Witness for C9: the hypothesis holds at a concrete failing listing. -/
theorem claim_C9_witness :
    (buildConfigMapFromConfigDir (Except.error "e") "d" "p" "n" "u").2 = some "e" ∧
    ((buildConfigMapFromConfigDir (Except.error "e") "d" "p" "n" "u").1 = none ∧
      createConfigMap (Except.error "e") acceptingCreate "d" "n" "p" "u" =
        GoResult.panic) :=
  ⟨rfl, claim_C9 (Except.error "e") acceptingCreate "d" "n" "p" "u" "e" rfl⟩

/-- C10: `AddConfigMapAnnotation` assigns into `app.Spec.SparkConf` without
initializing it: on an application whose `SparkConf` map is nil the call
panics, and so does the annotation-registration step of
`CreateSparkConfigMap` after a successful create. -/
theorem claim_C10 (app : SparkApplication) (ack k v : String)
    (readDir : Except String (List DirEntry))
    (create : ConfigMap → Option ConfigMap × Option String)
    (dir ns name : String)
    (hnil : app.spec.sparkConf = none)
    (hok : createConfigMap readDir create dir ns SparkConfigMapNamePfx app.uid =
      GoResult.ok (name, none)) :
    AddConfigMapAnnotationEntry app ack k v = GoResult.panic ∧
    CreateSparkConfigMap readDir create dir ns app = GoResult.panic := by
  constructor
  · simp [AddConfigMapAnnotationEntry, hnil]
  · simp [CreateSparkConfigMap, hok, AddConfigMapAnnotationEntry, hnil]

/-- Witness for C10: both hypotheses hold for a concrete application with a
nil `SparkConf` map and an empty directory that provisions successfully. -/
theorem claim_C10_witness :
    appNilConf.spec.sparkConf = none ∧
    createConfigMap (Except.ok []) acceptingCreate "d" "n" SparkConfigMapNamePfx
        appNilConf.uid = GoResult.ok (nameSW, none) ∧
    (AddConfigMapAnnotationEntry appNilConf "a" "b" "c" = GoResult.panic ∧
      CreateSparkConfigMap (Except.ok []) acceptingCreate "d" "n" appNilConf =
        GoResult.panic) :=
  ⟨rfl, rfl,
    claim_C10 appNilConf "a" "b" "c" (Except.ok []) acceptingCreate "d" "n"
      nameSW rfl rfl⟩

/-- C5: iterating `AddConfigMapAnnotation` never removes or overwrites an
existing entry: starting from a state where the annotation key is absent,
after the calls `entries` (in order) on the same key, the stored value is
exactly the comma-joined `subkey=value` entries in call order (so `N` calls
yield exactly `N` entries, and a repeated subkey appears twice rather than
replacing its first occurrence), and no other key of the map is touched
(the single `mapInsert` at `key` is the whole change). -/
theorem claim_C5 (app : SparkApplication) (conf : List (String × String))
    (key : String) (entries : List (String × String))
    (hne : entries ≠ [])
    (hconf : app.spec.sparkConf = some conf)
    (habsent : mapGet conf key = none) :
    iterAddEntry key entries app =
      GoResult.ok { app with spec := { app.spec with
        sparkConf := some (mapInsert conf key (joinEntries entries)) } } := by
  cases entries with
  | nil => cases hne rfl
  | cons kv rest =>
    obtain ⟨k, v⟩ := kv
    rw [iterAddEntry, addEntry_some app conf key k v hconf, habsent]
    dsimp only
    cases hrest : rest with
    | nil => simp [iterAddEntry, joinEntries, entryStr, appendEntryVal]
    | cons kv' rest' =>
      rw [← hrest]
      have hne' : rest ≠ [] := by rw [hrest]; simp
      have hconf1 : ({ app with spec := { app.spec with
          sparkConf := some (mapInsert conf key (appendEntryVal none k v)) } }
            : SparkApplication).spec.sparkConf =
          some (mapInsert conf key (appendEntryVal none k v)) := rfl
      rw [iterAddEntry_present key rest _ _ (appendEntryVal none k v) hconf1
        (mapGet_mapInsert_self conf key (appendEntryVal none k v)) hne']
      rw [mapInsert_mapInsert_self]
      rw [joinEntries_cons (k, v) rest hne']
      simp [appendEntryVal, entryStr, String.append_assoc]

/-- Witness for C5: two concrete calls on the driver annotation key of an
application whose conf map starts without that key. -/
theorem claim_C5_witness :
    ([("cm-annot", "name1"), ("cm-annot2", "name2")] : List (String × String)) ≠ [] ∧
    appW.spec.sparkConf = some [] ∧
    mapGet [] SparkDriverAnnotationsKey = none ∧
    iterAddEntry SparkDriverAnnotationsKey
        [("cm-annot", "name1"), ("cm-annot2", "name2")] appW =
      GoResult.ok { appW with spec := { appW.spec with
        sparkConf := some (mapInsert [] SparkDriverAnnotationsKey
          (joinEntries [("cm-annot", "name1"), ("cm-annot2", "name2")])) } } :=
  ⟨by simp, rfl, rfl,
    claim_C5 appW [] SparkDriverAnnotationsKey
      [("cm-annot", "name1"), ("cm-annot2", "name2")] (by simp) rfl rfl⟩

/-- C3: content fidelity — on a successful build from a listing with distinct
entry names, the ConfigMap's data map holds exactly `filename ↦ content` for
every non-directory entry, with no extra and no missing keys; subdirectory
entries are excluded both from the map and from the hash (filtering them out
of the listing changes nothing of the result). -/
theorem claim_C3 (files : List DirEntry) (dir pfx ns uid : String) (cm : ConfigMap)
    (hnodup : (files.map DirEntry.name).Nodup)
    (hok : buildConfigMapFromConfigDir (Except.ok files) dir pfx ns uid =
      (some cm, none)) :
    (∀ k v, mapGet cm.data k = some v ↔
       ∃ f ∈ files, f.isDir = false ∧ f.name = k ∧ f.content = Except.ok v) ∧
    buildConfigMapFromConfigDir (Except.ok (files.filter fun f => !f.isDir))
        dir pfx ns uid = (some cm, none) := by
  obtain ⟨h1, hp, -, -⟩ := buildConfigMap_ok_elim files dir pfx ns uid cm hok
  have hdata : cm.data = extractData files := by
    have := processFiles_data files fnvOffsetBasis [] h1 cm.data
      (fun f _ _ => rfl) hnodup hp
    simpa using this
  constructor
  · intro k v
    rw [hdata]
    exact mapGet_extractData files hnodup k v
  · rw [buildConfigMap_filter]
    exact hok

/-- Witness for C3: both hypotheses hold at a concrete listing with one file
and one subdirectory. -/
theorem claim_C3_witness :
    (wListingC3.map DirEntry.name).Nodup ∧
    buildConfigMapFromConfigDir (Except.ok wListingC3) "d" "p" "n" "u" =
      (some cmC3, none) ∧
    buildConfigMapFromConfigDir (Except.ok (wListingC3.filter fun f => !f.isDir))
        "d" "p" "n" "u" = (some cmC3, none) :=
  ⟨by decide, rfl, (claim_C3 wListingC3 "d" "p" "n" "u" cmC3 (by decide) rfl).2⟩

/-- C4: the bundle name is `"<prefix>-<hash>"` where the hash is the 32-bit
accumulator fed, in order, each non-directory file's bytes in listing order,
then the directory path, the namespace and the owner UID; in particular for an
empty directory the name is derived from the three trailing context fields
alone. -/
theorem claim_C4 (files : List DirEntry) (dir pfx ns uid : String) (cm : ConfigMap)
    (hok : buildConfigMapFromConfigDir (Except.ok files) dir pfx ns uid =
      (some cm, none)) :
    cm.name = pfx ++ "-" ++ toString (hashBytes fnvOffsetBasis
      (((fileContents files).map strBytes).flatten ++ strBytes dir ++ strBytes ns ++
        strBytes uid)) ∧
    buildConfigMapFromConfigDir (Except.ok []) dir pfx ns uid =
      (some { name := pfx ++ "-" ++ toString (hashBytes fnvOffsetBasis
                        (strBytes dir ++ strBytes ns ++ strBytes uid)),
              ns := ns, data := [] }, none) := by
  obtain ⟨h1, hp, hname, -⟩ := buildConfigMap_ok_elim files dir pfx ns uid cm hok
  have hh := processFiles_hash files fnvOffsetBasis [] h1 cm.data hp
  constructor
  · rw [hname, hh]
    simp [hashBytes_append]
  · simp [buildConfigMapFromConfigDir, processFiles, hashBytes_append]

/-- Witness for C4: the hypothesis holds at a concrete one-file listing. -/
theorem claim_C4_witness :
    buildConfigMapFromConfigDir (Except.ok wListing) "d" "p" "n" "u" =
      (some cmC1, none) ∧
    cmC1.name = "p" ++ "-" ++ toString (hashBytes fnvOffsetBasis
      (((fileContents wListing).map strBytes).flatten ++ strBytes "d" ++
        strBytes "n" ++ strBytes "u")) :=
  ⟨rfl, (claim_C4 wListing "d" "p" "n" "u" cmC1 rfl).1⟩

/-- C6: on success, `CreateSparkConfigMap` registers the same provisioned
bundle name under both role-specific annotation keys — subkey
`apache-spark-on-k8s/spark-config-map` appended under
`spark.kubernetes.driver.annotations` and under
`spark.kubernetes.executor.annotations` — and sets `app.Spec.SparkConfigMap`
to that name; `CreateHadoopConfigMap` does the symmetric thing with subkey
`apache-spark-on-k8s/hadoop-config-map` and `app.Spec.HadoopConfigMap`. -/
theorem claim_C6 (readDirS readDirH : Except String (List DirEntry))
    (createS createH : ConfigMap → Option ConfigMap × Option String)
    (dirS dirH ns : String) (app : SparkApplication)
    (conf : List (String × String)) (nameS nameH : String)
    (hconf : app.spec.sparkConf = some conf)
    (hS : createConfigMap readDirS createS dirS ns SparkConfigMapNamePfx app.uid =
      GoResult.ok (nameS, none))
    (hH : createConfigMap readDirH createH dirH ns HadoopConfigMapNamePfx app.uid =
      GoResult.ok (nameH, none)) :
    CreateSparkConfigMap readDirS createS dirS ns app =
      GoResult.ok ({ app with spec := { app.spec with
        sparkConf := some (mapInsert
          (mapInsert conf SparkDriverAnnotationsKey
            (appendEntryVal (mapGet conf SparkDriverAnnotationsKey)
              SparkConfigMapAnnotationName nameS))
          SparkExecutorAnnotationsKey
          (appendEntryVal (mapGet conf SparkExecutorAnnotationsKey)
            SparkConfigMapAnnotationName nameS)),
        sparkConfigMap := some nameS } }, none) ∧
    CreateHadoopConfigMap readDirH createH dirH ns app =
      GoResult.ok ({ app with spec := { app.spec with
        sparkConf := some (mapInsert
          (mapInsert conf SparkDriverAnnotationsKey
            (appendEntryVal (mapGet conf SparkDriverAnnotationsKey)
              HadoopConfigMapAnnotationName nameH))
          SparkExecutorAnnotationsKey
          (appendEntryVal (mapGet conf SparkExecutorAnnotationsKey)
            HadoopConfigMapAnnotationName nameH)),
        hadoopConfigMap := some nameH } }, none) := by
  have hkeys : SparkExecutorAnnotationsKey ≠ SparkDriverAnnotationsKey := by decide
  constructor
  · rw [CreateSparkConfigMap, hS]
    dsimp only
    rw [addEntry_some app conf SparkDriverAnnotationsKey
      SparkConfigMapAnnotationName nameS hconf]
    dsimp only
    rw [addEntry_some _ (mapInsert conf SparkDriverAnnotationsKey
        (appendEntryVal (mapGet conf SparkDriverAnnotationsKey)
          SparkConfigMapAnnotationName nameS))
      SparkExecutorAnnotationsKey SparkConfigMapAnnotationName nameS rfl]
    dsimp only
    rw [mapGet_mapInsert_ne conf SparkDriverAnnotationsKey
      (appendEntryVal (mapGet conf SparkDriverAnnotationsKey)
        SparkConfigMapAnnotationName nameS)
      SparkExecutorAnnotationsKey hkeys]
  · rw [CreateHadoopConfigMap, hH]
    dsimp only
    rw [addEntry_some app conf SparkDriverAnnotationsKey
      HadoopConfigMapAnnotationName nameH hconf]
    dsimp only
    rw [addEntry_some _ (mapInsert conf SparkDriverAnnotationsKey
        (appendEntryVal (mapGet conf SparkDriverAnnotationsKey)
          HadoopConfigMapAnnotationName nameH))
      SparkExecutorAnnotationsKey HadoopConfigMapAnnotationName nameH rfl]
    dsimp only
    rw [mapGet_mapInsert_ne conf SparkDriverAnnotationsKey
      (appendEntryVal (mapGet conf SparkDriverAnnotationsKey)
        HadoopConfigMapAnnotationName nameH)
      SparkExecutorAnnotationsKey hkeys]

/-- Witness for C6: all three hypotheses hold for a concrete application with
an initialized empty conf map and empty directories that provision
successfully. -/
theorem claim_C6_witness :
    appW.spec.sparkConf = some [] ∧
    createConfigMap (Except.ok []) acceptingCreate "d" "n" SparkConfigMapNamePfx
        appW.uid = GoResult.ok (nameSW, none) ∧
    createConfigMap (Except.ok []) acceptingCreate "d" "n" HadoopConfigMapNamePfx
        appW.uid = GoResult.ok (nameHW, none) ∧
    (CreateSparkConfigMap (Except.ok []) acceptingCreate "d" "n" appW =
      GoResult.ok ({ appW with spec := { appW.spec with
        sparkConf := some (mapInsert
          (mapInsert [] SparkDriverAnnotationsKey
            (appendEntryVal (mapGet [] SparkDriverAnnotationsKey)
              SparkConfigMapAnnotationName nameSW))
          SparkExecutorAnnotationsKey
          (appendEntryVal (mapGet [] SparkExecutorAnnotationsKey)
            SparkConfigMapAnnotationName nameSW)),
        sparkConfigMap := some nameSW } }, none) ∧
    CreateHadoopConfigMap (Except.ok []) acceptingCreate "d" "n" appW =
      GoResult.ok ({ appW with spec := { appW.spec with
        sparkConf := some (mapInsert
          (mapInsert [] SparkDriverAnnotationsKey
            (appendEntryVal (mapGet [] SparkDriverAnnotationsKey)
              HadoopConfigMapAnnotationName nameHW))
          SparkExecutorAnnotationsKey
          (appendEntryVal (mapGet [] SparkExecutorAnnotationsKey)
            HadoopConfigMapAnnotationName nameHW)),
        hadoopConfigMap := some nameHW } }, none)) :=
  ⟨rfl, rfl, rfl,
    claim_C6 (Except.ok []) (Except.ok []) acceptingCreate acceptingCreate
      "d" "d" "n" appW [] nameSW nameHW rfl rfl rfl⟩

end SparkOp
